import Mathlib

/-!
Shallow embedding of the hierarchical field-mapping resolver, the mapping
registry, and the field-projection engine of the EdCloud PDF-generation
service (TypeScript sources: the field-mappings config module and
src/pdf/generator.ts), together with proofs checking the design
specification's claims against the embedded code.

Conventions:
* TypeScript `undefined`/missing optional values are `Option.none`.
* JavaScript truthiness on optional strings is `strTruthy` (absent and the
  empty string are falsy).
* The recursive inheritance resolver is embedded with an explicit fuel
  parameter: `resolveInheritance fuel cfgs c = none` means the call-tree of
  the source recursion is deeper than `fuel`; the source recursion
  terminates on an input iff some finite fuel suffices.
-/

set_option maxRecDepth 4096

namespace PdfGen

/-- One field specification (`FieldMapping` in the source): a source path
(`apiName`), a display label, and optional type/format tags. -/
structure FieldMapping where
  apiName : String
  label : String
  type : Option String := none
  format : Option String := none
deriving DecidableEq, Repr

/-- A named, ordered group of fields (`Section` in the source). -/
structure Section where
  name : String
  fields : List FieldMapping
deriving DecidableEq, Repr

/-- A raw configuration document as stored in a JSON file
(`FieldMappingConfig`/`RawConfig` in the source). `extendsName` embeds the
TS field `extends` (a Lean keyword). -/
structure RawConfig where
  extendsName : Option String := none
  schoolId : Option String := none
  programId : Option String := none
  schoolName : Option String := none
  programName : Option String := none
  sections : Option (List Section) := none
  addSections : Option (List Section) := none
  removeSections : Option (List String) := none
  overrideSections : Option (List Section) := none
deriving DecidableEq, Repr

/-- A resolved configuration (`ResolvedFieldMappingConfig` in the source):
inheritance directives are gone, `sections` is concrete. -/
structure ResolvedFieldMappingConfig where
  schoolId : Option String := none
  programId : Option String := none
  schoolName : Option String := none
  programName : Option String := none
  sections : List Section := []
deriving DecidableEq, Repr

/-- JavaScript truthiness of an optional string: `undefined` and `""` are
falsy, every other string is truthy. -/
def strTruthy : Option String → Bool
  | none => false
  | some s => s != ""

/-- The JS nullish-coalescing operator `a ?? b` on optional strings: keeps
`a` whenever it is present (even when empty), otherwise `b`. -/
def jsCoalesce (a b : Option String) : Option String :=
  match a with
  | some v => some v
  | none => b

/-- The raw documents keyed by config name (the `rawConfigs` map). -/
abbrev RawConfigs := List (String × RawConfig)

/-- One step of the override loop in `resolveInheritance`: replace the
section with the same name in place, or append when no match exists. -/
def applyOverride (sections : List Section) (ov : Section) : List Section :=
  match sections.findIdx? (fun s => s.name == ov.name) with
  | some idx => sections.set idx ov
  | none => sections ++ [ov]

/-- `FieldMappingService.resolveInheritance`, embedded with explicit fuel.
The source recursion carries no visited set and no cycle check: each call
on a document with a truthy `extends` that names an existing parent
recurses into that parent unconditionally. `none` means the recursion
needs more than `fuel` nested calls. -/
def resolveInheritance (fuel : Nat) (cfgs : RawConfigs) (config : RawConfig) :
    Option ResolvedFieldMappingConfig :=
  match fuel with
  | 0 => none
  | fuel + 1 =>
    match config.extendsName with
    | none =>
      some { schoolId := config.schoolId, programId := config.programId,
             schoolName := config.schoolName, programName := config.programName,
             sections := config.sections.getD [] }
    | some parentName =>
      if parentName == "" then
        -- `if (!config.extends)`: an empty string is falsy, treated as no parent
        some { schoolId := config.schoolId, programId := config.programId,
               schoolName := config.schoolName, programName := config.programName,
               sections := config.sections.getD [] }
      else
        match cfgs.lookup parentName with
        | none =>
          -- missing parent: degrade to the child's own sections
          some { schoolId := config.schoolId, programId := config.programId,
                 schoolName := config.schoolName, programName := config.programName,
                 sections := config.sections.getD [] }
        | some parentRaw =>
          (resolveInheritance fuel cfgs parentRaw).map (fun parent =>
            let s0 := parent.sections
            let s1 :=
              if (config.removeSections.getD []).isEmpty then s0
              else s0.filter (fun s => !((config.removeSections.getD []).contains s.name))
            let s2 := (config.overrideSections.getD []).foldl applyOverride s1
            let s3 := s2 ++ config.addSections.getD []
            let s4 := if (config.sections.getD []).isEmpty then s3 else config.sections.getD []
            { schoolId := jsCoalesce config.schoolId parent.schoolId,
              programId := jsCoalesce config.programId parent.programId,
              schoolName := jsCoalesce config.schoolName parent.schoolName,
              programName := jsCoalesce config.programName parent.programName,
              sections := s4 })

/-- `chainOk cfgs n c` holds when the `extends` chain starting at `c`
reaches a root document (no truthy `extends`) or a missing parent within
`n` parent steps, i.e. the chain is acyclic with depth at most `n`. -/
def chainOk (cfgs : RawConfigs) : Nat → RawConfig → Bool
  | 0, c =>
    match c.extendsName with
    | none => true
    | some p => p == "" || (cfgs.lookup p).isNone
  | n + 1, c =>
    match c.extendsName with
    | none => true
    | some p =>
      p == "" ||
        match cfgs.lookup p with
        | none => true
        | some parentRaw => chainOk cfgs n parentRaw

/-- The registry of resolved configs keyed by lookup key (the `mappings`
map of `FieldMappingService`). -/
abbrev Registry := List (String × ResolvedFieldMappingConfig)

/-- `Map.set` semantics: the new binding shadows any previous binding of
the same key and every other key is untouched. -/
def mapSet (reg : Registry) (k : String) (v : ResolvedFieldMappingConfig) : Registry :=
  (k, v) :: reg.filter (fun p => !(p.1 == k))

/-- `FieldMappingService.getMappingKey`. -/
def getMappingKey (schoolId programId : Option String) : String :=
  if strTruthy schoolId && strTruthy programId then
    schoolId.getD "" ++ ":" ++ programId.getD ""
  else if strTruthy schoolId then "school:" ++ schoolId.getD ""
  else if strTruthy programId then "program:" ++ programId.getD ""
  else "default"

/-- `FieldMappingService.registerConfig`: index a resolved document under
every key it can serve. -/
def registerConfig (configName : String) (config : ResolvedFieldMappingConfig)
    (reg : Registry) : Registry :=
  let reg1 :=
    if strTruthy config.schoolId || strTruthy config.programId then
      mapSet reg (getMappingKey config.schoolId config.programId) config
    else reg
  let reg2 :=
    if strTruthy config.programName then
      mapSet reg1 ("program:" ++ config.programName.getD "") config
    else reg1
  let reg3 :=
    if strTruthy config.schoolName then
      mapSet reg2 ("schoolName:" ++ config.schoolName.getD "") config
    else reg2
  if configName == "default" then mapSet reg3 "default" config else reg3

/-- `FieldMappingService.getHardcodedFallback`: the hardcoded in-memory
minimal mapping, transcribed from the source. -/
def getHardcodedFallback : ResolvedFieldMappingConfig :=
  { sections :=
      [ { name := "Application Information",
          fields :=
            [ { apiName := "Name", label := "Application Number" },
              { apiName := "Id", label := "Application ID" },
              { apiName := "Status", label := "Application Status" },
              { apiName := "School_Name__c", label := "School Name" },
              { apiName := "Program_Name__c", label := "Program Name" },
              { apiName := "Location__c", label := "Campus Location" },
              { apiName := "Term__c", label := "Term" },
              { apiName := "AppliedDate", label := "Applied Date", format := some "date" },
              { apiName := "Application_Submitted_Date__c",
                label := "Application Submitted Date", format := some "date" },
              { apiName := "Admissions_Status__c", label := "Admissions Status" },
              { apiName := "Decision__c", label := "Decision" } ] },
        { name := "Applicant Information",
          fields :=
            [ { apiName := "Contact.FirstName", label := "First Name" },
              { apiName := "Contact.LastName", label := "Last Name" },
              { apiName := "Contact.Email", label := "Email" },
              { apiName := "Contact.MobilePhone", label := "Mobile",
                format := some "phone" } ] } ] }

/-- `FieldMappingService.getMapping`: the priority-ordered lookup. The
source's return type is `ResolvedFieldMappingConfig | null`; every branch
returns a value. -/
def getMapping (reg : Registry)
    (schoolId programId schoolName programName : Option String) :
    Option ResolvedFieldMappingConfig :=
  -- Priority 1: specific schoolId/programId key (with neither id supplied
  -- this key is the literal "default")
  match reg.lookup (getMappingKey schoolId programId) with
  | some m => some m
  | none =>
    -- Priority 2: school-level mapping by id
    match (if strTruthy schoolId then reg.lookup ("school:" ++ schoolId.getD "") else none) with
    | some m => some m
    | none =>
      -- Priority 3: school-level mapping by name, checked before program name
      match (if strTruthy schoolName then reg.lookup ("schoolName:" ++ schoolName.getD "") else none) with
      | some m => some m
      | none =>
        -- Priority 4: program name, only when no truthy school name was supplied
        match (if strTruthy programName && !(strTruthy schoolName) then
                 reg.lookup ("program:" ++ programName.getD "") else none) with
        | some m => some m
        | none =>
          -- Priority 5: default document; Priority 6: hardcoded fallback
          match reg.lookup "default" with
          | some m => some m
          | none => some getHardcodedFallback

/-! ### The loosely-typed source record -/

/-- A JSON-like runtime value of the source record. TS `undefined` is not a
`JsValue`; absence is `Option.none` at use sites. -/
inductive JsValue where
  | vnull
  | vbool (b : Bool)
  | vnum (n : Int)
  | vstr (s : String)
  | varr (elems : List JsValue)
  | vobj (fields : List (String × JsValue))

/-- JavaScript truthiness of a runtime value (records in scope hold no
`NaN`, so a number is truthy iff nonzero). -/
def truthy : JsValue → Bool
  | .vnull => false
  | .vbool b => b
  | .vnum n => n != 0
  | .vstr s => s != ""
  | .varr _ => true
  | .vobj _ => true

mutual

/-- JavaScript `String(value)` on the values a record can hold. -/
def jsString : JsValue → String
  | .vnull => "null"
  | .vbool b => if b then "true" else "false"
  | .vnum n => toString n
  | .vstr s => s
  | .varr xs => String.intercalate "," (jsStringList xs)
  | .vobj _ => "[object Object]"

/-- Array elements under `Array.prototype.toString`: a `null` element
stringifies to the empty string. -/
def jsStringList : List JsValue → List String
  | [] => []
  | JsValue.vnull :: vs => "" :: jsStringList vs
  | v :: vs => jsString v :: jsStringList vs

end

/-- Numeric value of a digit string. -/
def natOfDigits (cs : List Char) : Nat :=
  cs.foldl (fun n c => n * 10 + (c.toNat - 48)) 0

/-- Parse a nonempty all-digit character list, else fail. -/
def digitsToNat? (cs : List Char) : Option Nat :=
  if !cs.isEmpty && cs.all Char.isDigit then some (natOfDigits cs) else none

/-- Property read `value[key]`. Objects are association-list lookups;
arrays expose canonical numeric indices and `length`. Prototype-chain
properties and string exotic indexing are out of the records' scope and
modelled as absent. -/
def getProp (v : JsValue) (key : String) : Option JsValue :=
  match v with
  | .vobj fields => fields.lookup key
  | .varr xs =>
    if key == "length" then some (.vnum (Int.ofNat xs.length))
    else
      match digitsToNat? key.data with
      | some i => if toString i == key then xs.get? i else none
      | none => none
  | _ => none

/-- `typeof v === "object"` for truthy values: objects and arrays. -/
def objLike : JsValue → Bool
  | .vobj _ => true
  | .varr _ => true
  | _ => false

/-- `String.prototype.includes` specialised to one character. -/
def jsIncludes (s : String) (c : Char) : Bool :=
  s.data.contains c

/-- Word characters of the JS `\w` class. -/
def isWordChar (c : Char) : Bool :=
  c.isAlphanum || c == '_'

/-- JavaScript `String.prototype.split` with a one-character separator,
on the character list. An empty input yields one empty chunk. -/
def splitChars (sep : Char) : List Char → List (List Char)
  | [] => [[]]
  | c :: rest =>
    if c == sep then [] :: splitChars sep rest
    else
      match splitChars sep rest with
      | chunk :: chunks => (c :: chunk) :: chunks
      | [] => [[c]]

/-- `apiName.split('.')` of the source. -/
def jsSplitDot (s : String) : List String :=
  (splitChars '.' s.data).map String.mk

/-- The segment regex `^(\w+)\[(\d+)\]$` of `getFieldValue`: a word-char
name followed by a bracketed decimal index spanning the whole segment. -/
def parseArraySeg (s : String) : Option (String × Nat) :=
  let cs := s.data
  let name := cs.takeWhile isWordChar
  match cs.dropWhile isWordChar with
  | '[' :: rest =>
    let digits := rest.takeWhile Char.isDigit
    if name.isEmpty || digits.isEmpty then none
    else
      match rest.dropWhile Char.isDigit with
      | [']'] => some (String.mk name, natOfDigits digits)
      | _ => none
  | _ => none

/-- The segment loop of `PDFGenerator.getFieldValue`: walk the split path,
treating a failed truthiness/shape check at any segment as absence. The
bracketed-index branch additionally requires the selected array element to
be truthy (the source reads `current[arrayName][parseInt(index)]` inside
the condition). -/
def walkParts (current : JsValue) : List String → Option JsValue
  | [] => some current
  | part :: rest =>
    match parseArraySeg part with
    | some (name, idx) =>
      if truthy current then
        match getProp current name with
        | some (.varr xs) =>
          match xs.get? idx with
          | some elem => if truthy elem then walkParts elem rest else none
          | none => none
        | _ => none
      else none
    | none =>
      if truthy current && objLike current then
        match getProp current part with
        | some next => walkParts next rest
        | none => none
      else none

/-- `PDFGenerator.getFieldValue`: direct key access for dot-free paths,
segment walking otherwise; a falsy (empty) path yields absence. -/
def getFieldValue (data : List (String × JsValue)) (apiName : String) : Option JsValue :=
  if apiName == "" then none
  else if jsIncludes apiName '.' then walkParts (.vobj data) (jsSplitDot apiName)
  else data.lookup apiName

/-! ### The JavaScript `Date` model

The `date` format branch of `formatFieldValue` feeds its input to
`new Date(...)` and renders with `toLocaleDateString()`. The ECMA-262 ISO
parse is modelled here: a date-time form without offset denotes local wall
clock time, a form with `Z` or a numeric offset denotes an absolute
instant, and a date-only form denotes UTC midnight. Non-ISO inputs
(implementation-defined in engines) are modelled as invalid. Rendering is
modelled for the en-US default short form `M/D/YYYY`; the time zone is an
explicit minutes-east-of-UTC parameter `tz`. -/

/-- One decimal digit. -/
def parseDigit (c : Char) : Option Nat :=
  if c.isDigit then some (c.toNat - 48) else none

/-- Days in a month of the proleptic Gregorian calendar. -/
def daysInMonth (y mo : Nat) : Nat :=
  if mo == 2 then
    if y % 4 == 0 && (y % 100 != 0 || y % 400 == 0) then 29 else 28
  else if mo == 4 || mo == 6 || mo == 9 || mo == 11 then 30
  else 31

/-- Days since the epoch 1970-01-01 of a civil date. -/
def daysFromCivil (y mo d : Int) : Int :=
  let yy := if mo <= 2 then y - 1 else y
  let era := Int.fdiv yy 400
  let yoe := yy - era * 400
  let mp := Int.emod (mo + 9) 12
  let doy := Int.fdiv (153 * mp + 2) 5 + d - 1
  let doe := yoe * 365 + Int.fdiv yoe 4 - Int.fdiv yoe 100 + doy
  era * 146097 + doe - 719468

/-- Civil date of a count of days since 1970-01-01. -/
def civilFromDays (z : Int) : Nat × Nat × Nat :=
  let zz := z + 719468
  let era := Int.fdiv zz 146097
  let doe := zz - era * 146097
  let yoe := Int.fdiv (doe - Int.fdiv doe 1460 + Int.fdiv doe 36524 - Int.fdiv doe 146096) 365
  let doy := doe - (365 * yoe + Int.fdiv yoe 4 - Int.fdiv yoe 100)
  let mp := Int.fdiv (5 * doy + 2) 153
  let d := doy - Int.fdiv (153 * mp + 2) 5 + 1
  let mo := mp + (if mp < 10 then 3 else -9)
  let y := yoe + era * 400 + (if mo <= 2 then 1 else 0)
  (y.toNat, mo.toNat, d.toNat)

/-- Seconds since the epoch of a UTC civil date-time. -/
def epochOfUtc (y mo d hh mm ss : Nat) : Int :=
  daysFromCivil (Int.ofNat y) (Int.ofNat mo) (Int.ofNat d) * 86400 +
    Int.ofNat (hh * 3600 + mm * 60 + ss)

/-- A successfully parsed `Date`: either local wall-clock components (an
ISO date-time without offset) or an absolute instant. -/
inductive JsDate where
  | localTime (y mo d hh mm ss : Nat)
  | utcTime (epochSec : Int)

/-- Decode the eight digit characters of a `YYYY-MM-DD` prefix, with
calendar validation. -/
def parseYMD8 (c1 c2 c3 c4 c5 c6 c7 c8 : Char) : Option (Nat × Nat × Nat) :=
  match parseDigit c1, parseDigit c2, parseDigit c3, parseDigit c4,
        parseDigit c5, parseDigit c6, parseDigit c7, parseDigit c8 with
  | some a, some b, some c, some d, some e, some f, some g, some h =>
    let y := ((a * 10 + b) * 10 + c) * 10 + d
    let mo := e * 10 + f
    let dd := g * 10 + h
    if 1 ≤ mo && mo ≤ 12 && 1 ≤ dd && dd ≤ daysInMonth y mo then some (y, mo, dd)
    else none
  | _, _, _, _, _, _, _, _ => none

/-- Parse the leading `YYYY-MM-DD` of an ISO date string, with calendar
validation, returning the remaining characters. -/
def parseYMD : List Char → Option ((Nat × Nat × Nat) × List Char)
  | c1 :: c2 :: c3 :: c4 :: '-' :: c5 :: c6 :: '-' :: c7 :: c8 :: rest =>
    (parseYMD8 c1 c2 c3 c4 c5 c6 c7 c8).map (fun ymd => (ymd, rest))
  | _ => none

/-- Parse `HH:MM` with optional `:SS`, with range validation, returning
the remaining characters. -/
def parseTime : List Char → Option ((Nat × Nat × Nat) × List Char)
  | h1 :: h2 :: ':' :: m1 :: m2 :: rest =>
    match parseDigit h1, parseDigit h2, parseDigit m1, parseDigit m2 with
    | some a, some b, some c, some d =>
      let hh := a * 10 + b
      let mm := c * 10 + d
      if hh ≤ 23 && mm ≤ 59 then
        match rest with
        | ':' :: s1 :: s2 :: rest2 =>
          match parseDigit s1, parseDigit s2 with
          | some e, some f =>
            let ss := e * 10 + f
            if ss ≤ 59 then some ((hh, mm, ss), rest2) else none
          | _, _ => none
        | _ => some ((hh, mm, 0), rest)
      else none
    | _, _, _, _ => none
  | _ => none

/-- Drop a fractional-seconds part `.ddd` when present. -/
def dropFraction : List Char → List Char
  | '.' :: c :: rest =>
    if c.isDigit then (c :: rest).dropWhile Char.isDigit else '.' :: c :: rest
  | cs => cs

/-- Parse a `HH:MM` numeric offset (after its sign) ending the string,
as minutes. -/
def parseOffsetMin : List Char → Option Nat
  | [o1, o2, ':', o3, o4] =>
    match parseDigit o1, parseDigit o2, parseDigit o3, parseDigit o4 with
    | some a, some b, some c, some d => some ((a * 10 + b) * 60 + (c * 10 + d))
    | _, _, _, _ => none
  | _ => none

/-- The ECMA-262 ISO parse performed by `new Date(string)` (invalid and
non-ISO inputs give `none`, the model of `Invalid Date`). -/
def jsDateParse (s : String) : Option JsDate :=
  match parseYMD s.data with
  | some ((y, mo, d), []) => some (.utcTime (epochOfUtc y mo d 0 0 0))
  | some ((y, mo, d), 'T' :: tr) =>
    match parseTime tr with
    | some ((hh, mm, ss), rest) =>
      match dropFraction rest with
      | [] => some (.localTime y mo d hh mm ss)
      | ['Z'] => some (.utcTime (epochOfUtc y mo d hh mm ss))
      | '+' :: os =>
        (parseOffsetMin os).map (fun off => .utcTime (epochOfUtc y mo d hh mm ss - Int.ofNat off * 60))
      | '-' :: os =>
        (parseOffsetMin os).map (fun off => .utcTime (epochOfUtc y mo d hh mm ss + Int.ofNat off * 60))
      | _ => none
    | none => none
  | _ => none

/-- The bare `YYYY-MM-DD` form of the specification: the whole string is
one syntactically and calendrically valid date, nothing after it. -/
def parseBareYMD (s : String) : Option (Nat × Nat × Nat) :=
  match parseYMD s.data with
  | some (ymd, []) => some ymd
  | _ => none

/-- The local calendar date a `Date` displays in the time zone `tz`
(minutes east of UTC). Local wall-clock components display as themselves
in every zone; an absolute instant is shifted by `tz`. -/
def localCalendarDate (tz : Int) : JsDate → Nat × Nat × Nat
  | .localTime y mo d _ _ _ => (y, mo, d)
  | .utcTime ep => civilFromDays (Int.fdiv (ep + tz * 60) 86400)

/-- `toLocaleDateString()` in the en-US default short form. -/
def shortDateStr (ymd : Nat × Nat × Nat) : String :=
  toString ymd.2.1 ++ "/" ++ toString ymd.2.2 ++ "/" ++ toString ymd.1

/-- The string handed to `new Date(...)` by the `date` branch: a string
without `T` gets `T00:00:00` appended so it is parsed as local midnight. -/
def jsDateInput (s : String) : String :=
  if jsIncludes s 'T' then s else s ++ "T00:00:00"

/-- The `case 'date'` branch of `formatFieldValue`. Records in scope hold
no `Date` objects, so the `instanceof Date` arm is vacuous and every
non-string value falls through to `String(value)`. -/
def dateFormat (tz : Int) (v : JsValue) : String :=
  match v with
  | .vstr s =>
    match jsDateParse (jsDateInput s) with
    | some dt => shortDateStr (localCalendarDate tz dt)
    | none => s
  | w => jsString w

/-- `PDFGenerator.formatPhone`: strip non-digits, render 10-digit numbers
as `(NNN) NNN-NNNN`, pass everything else through. -/
def formatPhone (phone : String) : String :=
  let cleaned := phone.data.filter Char.isDigit
  if cleaned.length == 10 then
    "(" ++ String.mk (cleaned.take 3) ++ ") " ++ String.mk ((cleaned.drop 3).take 3)
      ++ "-" ++ String.mk (cleaned.drop 6)
  else phone

/-- `parseFloat` on a string, modelled at integer precision (an optional
sign and leading digits; fractional digits beyond the decimal point are
out of the claims' scope and truncated). -/
def jsParseIntPrefix (s : String) : Option Int :=
  match s.data with
  | '-' :: c :: rest =>
    if c.isDigit then some (-(Int.ofNat (natOfDigits ((c :: rest).takeWhile Char.isDigit))))
    else none
  | c :: rest =>
    if c.isDigit then some (Int.ofNat (natOfDigits ((c :: rest).takeWhile Char.isDigit)))
    else none
  | [] => none

/-- Digit grouping of the en-US currency format. -/
def groupDigits (cs : List Char) : String :=
  if cs.length ≤ 3 then String.mk cs
  else groupDigits (cs.take (cs.length - 3)) ++ "," ++ String.mk (cs.drop (cs.length - 3))
termination_by cs.length
decreasing_by
  simp_all
  omega

/-- The `case 'currency'` branch: parse a decimal number and render in the
fixed en-US USD format (modelled at whole-unit precision). -/
def currencyFormat (v : JsValue) : String :=
  match v with
  | .vstr s =>
    match jsParseIntPrefix s with
    | some n =>
      (if n < 0 then "-$" else "$") ++ groupDigits (toString n.natAbs).data ++ ".00"
    | none => s
  | .vnum n => (if n < 0 then "-$" else "$") ++ groupDigits (toString n.natAbs).data ++ ".00"
  | w => jsString w

/-- The format dispatch of `formatFieldValue` for a truthy `format` tag.
A non-string `phone` value raises a `TypeError` in the source (`.replace`
on a non-string); records in scope carry strings there, modelled as
passthrough of the string form. -/
def applyFormat (tz : Int) (v : JsValue) (field : FieldMapping) : String :=
  match field.format.getD "" with
  | "date" => dateFormat tz v
  | "currency" => currencyFormat v
  | "phone" =>
    match v with
    | .vstr s => formatPhone s
    | w => jsString w
  | _ => jsString v

/-- `PDFGenerator.formatFieldValue`: empty marker for absent, `null` and
empty-string values; localized booleans; the literal zero guard; then the
per-format dispatch (the guards are spelled per constructor, one `if` per
early `return` of the source). -/
def formatFieldValue (tz : Int) (value : Option JsValue) (field : FieldMapping) : String :=
  match value with
  | none => "—"
  | some .vnull => "—"
  | some (.vbool b) => if b then "Yes" else "No"
  | some (.vstr s) =>
    if s == "" then "—"
    else if strTruthy field.format then applyFormat tz (.vstr s) field else s
  | some (.vnum n) =>
    if n == 0 then "0"
    else if strTruthy field.format then applyFormat tz (.vnum n) field else toString n
  | some v => if strTruthy field.format then applyFormat tz v field else jsString v

/-! ### The projection pipeline (`prepareTemplateData`, sections part) -/

/-- The two output modes of the generator. -/
inductive Mode where
  | complete
  | lite
deriving DecidableEq, Repr

/-- A projected field of the template data. -/
structure ProjField where
  label : String
  value : String
  apiName : String
  link : Option String
deriving DecidableEq, Repr

/-- A projected section of the template data. -/
structure ProjSection where
  name : String
  fields : List ProjField
deriving DecidableEq, Repr

/-- `PDFGenerator.liteExcludeFields`: source paths dropped unconditionally
in lite mode. -/
def liteExcludeFields : List String :=
  [ "Id", "AccountId", "Contact_ID__c", "Owner__c", "Opportunity__c",
    "Mogli_Number_from_Contact__c", "Mogli_Opt_Out__c",
    "Duplicate_Record__c", "Active__c", "SIS_Status_Field__c",
    "Character_Statement_Needed__c", "Manually_Trigger_Checklist_Items__c",
    "ProgramTermApplnTimelineId", "Applicant_Portal_Status__c" ]

/-- `PDFGenerator.liteIncludeLabels`: the allowlist of essential labels
kept in lite mode. -/
def liteIncludeLabels : List String :=
  [ "Application Number", "Application Status", "Program Name", "Term", "Location",
    "Campus Location", "First Name", "Last Name", "Name", "Mobile", "Email",
    "Mailing Street", "Mailing City", "Mailing State", "Mailing Postal Code",
    "Mailing Country", "Citizenship Status", "Applied Date",
    "Application Submitted Date", "Admissions Status", "Decision",
    "Applicant Decision", "Decision Release Date", "Admit Contingencies",
    "Interview Status", "Interview Date", "First Generation Student",
    "International Student", "Highest High School GPA", "Highest College GPA",
    "Cumulative GPA", "Scholarship", "Scholarship Amount", "Scholarship Message",
    "Applying for Financial Aid", "Deposit Amount", "Deposit Due Date",
    "Deposit Date Passed" ]

/-- The instance-URL default of the source
(`process.env.SF_INSTANCE_URL || '...'`). -/
def defaultInstanceUrl : String :=
  "https://tcseducationsystem--staging.sandbox.lightning.force.com"

/-- The configured Salesforce instance URL: the environment value when
truthy, else the hardcoded default. -/
def instanceUrlOf (envUrl : Option String) : String :=
  if strTruthy envUrl then envUrl.getD "" else defaultInstanceUrl

/-- A Lightning record deep link. -/
def recordUrl (instanceUrl objType recId : String) : String :=
  instanceUrl ++ "/lightning/r/" ++ objType ++ "/" ++ recId ++ "/view"

/-- Deep-link URL derived from a truthy identity field of the record. -/
def identityUrl (instanceUrl : String) (data : List (String × JsValue))
    (key objType : String) : Option String :=
  match data.lookup key with
  | some v => if truthy v then some (recordUrl instanceUrl objType (jsString v)) else none
  | none => none

/-- The deep-link chain of the field loop: the first matching identity
field (application id/number, opportunity, program) whose URL is
available wins. -/
def linkFor (appUrl oppUrl progUrl : Option String) (field : FieldMapping) :
    Option String :=
  if appUrl.isSome && (field.apiName == "Id" || field.label == "Application ID") then appUrl
  else if appUrl.isSome && (field.apiName == "Name" || field.label == "Application Number") then appUrl
  else if oppUrl.isSome && (field.apiName == "Opportunity__c" || field.label == "Opportunity") then oppUrl
  else if progUrl.isSome && (field.apiName == "Program_Name__c" || field.label == "Program Name") then progUrl
  else none

/-- The per-field body of the section loop in `prepareTemplateData`:
extraction, formatting, the three lite-mode drop rules, and the deep-link
attachment (complete mode only). `none` models the `return null` paths. -/
def projectField (isLite : Bool) (appUrl oppUrl progUrl : Option String)
    (tz : Int) (data : List (String × JsValue)) (field : FieldMapping) :
    Option ProjField :=
  if isLite && liteExcludeFields.contains field.apiName then none
  else if isLite && !(liteIncludeLabels.contains field.label) then none
  else if isLite && (formatFieldValue tz (getFieldValue data field.apiName) field == "—"
                      || formatFieldValue tz (getFieldValue data field.apiName) field == "") then
    none
  else
    some { label := field.label,
           value := formatFieldValue tz (getFieldValue data field.apiName) field,
           apiName := field.apiName,
           link := if isLite then none else linkFor appUrl oppUrl progUrl field }

/-- The `sections` computation of `PDFGenerator.prepareTemplateData`: map
every declared section through the field loop, then drop sections with no
surviving fields (the trailing unconditional `.filter`). `envUrl` is the
`SF_INSTANCE_URL` process environment variable and `tz` the process time
zone, both read by the source from ambient process state. -/
def prepareTemplateData (envUrl : Option String) (tz : Int)
    (data : List (String × JsValue)) (mapping : ResolvedFieldMappingConfig)
    (mode : Mode) : List ProjSection :=
  (mapping.sections.map (fun sect =>
      ProjSection.mk sect.name
        (sect.fields.filterMap
          (projectField (mode == Mode.lite)
            (identityUrl (instanceUrlOf envUrl) data "Id" "IndividualApplication")
            (identityUrl (instanceUrlOf envUrl) data "Opportunity__c" "Opportunity")
            (identityUrl (instanceUrlOf envUrl) data "LearningProgramId" "LearningProgram")
            tz data)))).filter
    (fun s => !s.fields.isEmpty)

/-! ## Claim C1: termination of `resolveInheritance` -/

/-- A two-document `extends` cycle: each document names the other as its
parent. -/
def cycConfigA : RawConfig := { extendsName := some "cycB" }

/-- The other half of the two-document cycle. -/
def cycConfigB : RawConfig := { extendsName := some "cycA" }

/-- A raw-config set whose `extends` references form a cycle. -/
def cycConfigs : RawConfigs := [("cycA", cycConfigA), ("cycB", cycConfigB)]

/-- On the cyclic config set, no recursion depth suffices for either
document: the resolver exhausts any fuel bound. -/
lemma resolveInheritance_cyc_none (n : Nat) :
    resolveInheritance n cycConfigs cycConfigA = none ∧
    resolveInheritance n cycConfigs cycConfigB = none := by
  induction n with
  | zero => exact ⟨rfl, rfl⟩
  | succ n ih =>
    refine ⟨?_, ?_⟩
    · show resolveInheritance (n + 1) cycConfigs cycConfigA = none
      unfold resolveInheritance
      simp only [show cycConfigA.extendsName = some "cycB" from rfl,
        show ("cycB" == "") = false from rfl,
        show cycConfigs.lookup "cycB" = some cycConfigB from rfl,
        Bool.false_eq_true, if_false, ih.2, Option.map_none']
    · show resolveInheritance (n + 1) cycConfigs cycConfigB = none
      unfold resolveInheritance
      simp only [show cycConfigB.extendsName = some "cycA" from rfl,
        show ("cycA" == "") = false from rfl,
        show cycConfigs.lookup "cycA" = some cycConfigA from rfl,
        Bool.false_eq_true, if_false, ih.1, Option.map_none']

/-- C1 (counterexample): on a raw-document set whose `extends` references
form a cycle (`cycA` extends `cycB` extends `cycA`), `resolveInheritance`
does not terminate: the source recursion carries no visited-chain check,
and in the fuel model no recursion depth whatsoever produces a result.
The claimed repeat-detection fallback does not exist in the code. -/
theorem resolveInheritance_cycle_diverges :
    cycConfigA.extendsName = some "cycB" ∧
    cycConfigB.extendsName = some "cycA" ∧
    cycConfigs.lookup "cycA" = some cycConfigA ∧
    cycConfigs.lookup "cycB" = some cycConfigB ∧
    ¬ ∃ n, (resolveInheritance n cycConfigs cycConfigA).isSome = true := by
  refine ⟨rfl, rfl, rfl, rfl, ?_⟩
  rintro ⟨n, hn⟩
  rw [(resolveInheritance_cyc_none n).1] at hn
  exact Bool.false_ne_true hn

/-- C1 (amended): with no cycle detection in the code, termination holds
exactly on acyclic inputs: whenever the `extends` chain from a document
reaches a root document or a missing parent within `n` steps, resolution
succeeds with fuel `n + 1`. -/
theorem resolveInheritance_terminates_on_acyclic
    (cfgs : RawConfigs) (n : Nat) (c : RawConfig)
    (h : chainOk cfgs n c = true) :
    (resolveInheritance (n + 1) cfgs c).isSome = true := by
  induction n generalizing c with
  | zero =>
    unfold chainOk at h
    unfold resolveInheritance
    cases hext : c.extendsName with
    | none => simp
    | some p =>
      rw [hext] at h
      by_cases hp : (p == "") = true
      · simp [hp]
      · simp only [hp, Bool.false_or] at h
        cases hlk : cfgs.lookup p with
        | none => simp [hp, hlk]
        | some parentRaw => rw [hlk] at h; simp at h
  | succ n ih =>
    unfold chainOk at h
    unfold resolveInheritance
    cases hext : c.extendsName with
    | none => simp
    | some p =>
      rw [hext] at h
      by_cases hp : (p == "") = true
      · simp [hp]
      · simp only [hp, Bool.false_or] at h
        cases hlk : cfgs.lookup p with
        | none => simp [hp, hlk]
        | some parentRaw =>
          rw [hlk] at h
          simp only [hp, Bool.false_eq_true, false_or] at h
          have hrec := ih parentRaw h
          simp [hp, hlk, Option.isSome_map, hrec]

/-- A root document for the acyclic witness. -/
def accRoot : RawConfig := { sections := some [{ name := "Base", fields := [] }] }

/-- A child extending the root, for the acyclic witness. -/
def accChild : RawConfig := { extendsName := some "accRoot" }

/-- The acyclic witness config set. -/
def accConfigs : RawConfigs := [("accRoot", accRoot), ("accChild", accChild)]

/-- Witness for C1 (amended): a concrete one-step acyclic chain resolves
with fuel 2. -/
theorem resolveInheritance_terminates_on_acyclic_witness :
    chainOk accConfigs 1 accChild = true ∧
    (resolveInheritance 2 accConfigs accChild).isSome = true :=
  ⟨by decide, resolveInheritance_terminates_on_acyclic accConfigs 1 accChild (by decide)⟩

/-! ## Claim C4: `removeSections` and reintroduction -/

/-- A parent document declaring a section named `X`. -/
def remParent : RawConfig := { sections := some [{ name := "X", fields := [] }] }

/-- A child that removes section `X` but also lists an override named `X`:
the override step re-adds the very section the removal dropped. -/
def remChild : RawConfig :=
  { extendsName := some "remParent",
    removeSections := some ["X"],
    overrideSections := some [{ name := "X", fields := [{ apiName := "F", label := "L" }] }] }

/-- The config set for the reintroduction counterexample. -/
def remConfigs : RawConfigs := [("remParent", remParent), ("remChild", remChild)]

/-- The all-default resolved document, used as a `getD` fallback in
concrete statements. -/
def emptyResolved : ResolvedFieldMappingConfig := {}

/-- C4 (counterexample): a child whose `removeSections` contains `X` and
whose resolvable parent resolves to a section list containing `X` can
still resolve to a section list containing `X`: the override step runs
after removal and appends an override named `X` when no section of that
name is left, so a later step does reintroduce the removed name. -/
theorem resolveInheritance_remove_reintroduced :
    "X" ∈ remChild.removeSections.getD [] ∧
    (((resolveInheritance 1 remConfigs remParent).getD emptyResolved).sections.any
      (fun s => s.name == "X")) = true ∧
    (((resolveInheritance 2 remConfigs remChild).getD emptyResolved).sections.any
      (fun s => s.name == "X")) = true := by
  refine ⟨by decide, rfl, rfl⟩

/-- Membership in the result of one override application: every section
of the output was a section of the input or is the override itself. -/
lemma mem_applyOverride {s ov : Section} {l : List Section}
    (h : s ∈ applyOverride l ov) : s ∈ l ∨ s = ov := by
  unfold applyOverride at h
  cases hidx : l.findIdx? (fun q => q.name == ov.name) with
  | none =>
    rw [hidx] at h
    simpa using h
  | some idx =>
    rw [hidx] at h
    exact List.mem_or_eq_of_mem_set h

/-- Membership after the whole override fold: every section of the output
was inherited or is one of the overrides. -/
lemma mem_foldl_applyOverride {s : Section} (ovs : List Section) (l : List Section)
    (h : s ∈ ovs.foldl applyOverride l) : s ∈ l ∨ s ∈ ovs := by
  induction ovs generalizing l with
  | nil => exact Or.inl h
  | cons ov ovs ih =>
    rcases ih (applyOverride l ov) h with hl | hov
    · rcases mem_applyOverride hl with h1 | h2
      · exact Or.inl h1
      · exact Or.inr (by simp [h2])
    · exact Or.inr (List.mem_cons_of_mem ov hov)

/-- C4 (amended): removal is applied first in the fixed
remove/override/add order, so for a child whose later steps do not
themselves carry the removed name — no override named `x`, no added
section named `x`, and no explicit replacement `sections` list — the
resolved child never contains a section named `x`, whatever the
resolvable parent contains. -/
theorem resolveInheritance_remove_not_reintroduced
    (cfgs : RawConfigs) (n : Nat) (c : RawConfig) (p : String)
    (parentRaw : RawConfig) (parent : ResolvedFieldMappingConfig) (x : String)
    (hext : c.extendsName = some p) (hp : (p == "") = false)
    (hlk : cfgs.lookup p = some parentRaw)
    (hpar : resolveInheritance n cfgs parentRaw = some parent)
    (hrm : x ∈ c.removeSections.getD [])
    (hov : ∀ s ∈ c.overrideSections.getD [], s.name ≠ x)
    (hadd : ∀ s ∈ c.addSections.getD [], s.name ≠ x)
    (hsec : c.sections.getD [] = []) :
    ∃ r, resolveInheritance (n + 1) cfgs c = some r ∧ ∀ s ∈ r.sections, s.name ≠ x := by
  unfold resolveInheritance
  rw [hext]
  simp only [hp, Bool.false_eq_true, if_false, hlk, hpar, Option.map_some']
  refine ⟨_, rfl, ?_⟩
  intro s hs
  simp only [hsec, List.isEmpty_nil, if_true] at hs
  rcases List.mem_append.mp hs with h2 | hA
  · rcases mem_foldl_applyOverride _ _ h2 with h1 | hO
    · -- s survived the removal filter
      have hne : ¬(c.removeSections.getD []).isEmpty = true := by
        cases hre : c.removeSections.getD [] with
        | nil => rw [hre] at hrm; cases hrm
        | cons a l => simp [hre]
      rw [if_neg hne] at h1
      have hprop := (List.mem_filter.mp h1).2
      intro hx
      have hcont : (c.removeSections.getD []).contains x = true := List.elem_iff.mpr hrm
      rw [hx, hcont] at hprop
      exact absurd hprop (by decide)
    · exact hov s hO
  · exact hadd s hA

/-- A child that only removes `X`, for the amended-claim witness. -/
def remOkChild : RawConfig :=
  { extendsName := some "remParent", removeSections := some ["X"] }

/-- The config set for the amended-claim witness. -/
def remOkConfigs : RawConfigs := [("remParent", remParent), ("remOkChild", remOkChild)]

/-- Witness for C4 (amended): the concrete remove-only child resolves to a
section list free of `X`. -/
theorem resolveInheritance_remove_not_reintroduced_witness :
    ∃ r, resolveInheritance 2 remOkConfigs remOkChild = some r ∧
      ∀ s ∈ r.sections, s.name ≠ "X" :=
  resolveInheritance_remove_not_reintroduced remOkConfigs 1 remOkChild "remParent"
    remParent { sections := [{ name := "X", fields := [] }] } "X"
    rfl rfl rfl rfl (by decide) (by decide) (by decide) rfl

/-! ## Claim C2: `getMapping` never fails -/

/-- C2: for every registry state and every combination of the four
optional lookup arguments, `getMapping` returns a mapping (`some`), and
that mapping is either one registered in the registry (reached by
degrading through the priority keys, ending at `default`) or the
hardcoded in-memory fallback; in particular, on an empty registry — no
configuration files loaded at all — the result is exactly the hardcoded
fallback. -/
theorem getMapping_never_fails (reg : Registry) (sid pid sn pn : Option String) :
    (∃ r, getMapping reg sid pid sn pn = some r ∧
      ((∃ k, reg.lookup k = some r) ∨ r = getHardcodedFallback)) ∧
    getMapping [] sid pid sn pn = some getHardcodedFallback := by
  constructor
  · unfold getMapping
    split
    next m h1 => exact ⟨m, rfl, Or.inl ⟨_, h1⟩⟩
    next h1 =>
      split
      next m h2 =>
        refine ⟨m, rfl, Or.inl ?_⟩
        split at h2
        · exact ⟨_, h2⟩
        · cases h2
      next h2 =>
        split
        next m h3 =>
          refine ⟨m, rfl, Or.inl ?_⟩
          split at h3
          · exact ⟨_, h3⟩
          · cases h3
        next h3 =>
          split
          next m h4 =>
            refine ⟨m, rfl, Or.inl ?_⟩
            split at h4
            · exact ⟨_, h4⟩
            · cases h4
          next h4 =>
            split
            next m h5 => exact ⟨m, rfl, Or.inl ⟨_, h5⟩⟩
            next h5 => exact ⟨_, rfl, Or.inr rfl⟩
  · simp [getMapping]

/-! ## Claim C3: school-name priority over program name -/

/-- A mapping registered under the textual school name `Acme`. -/
def acmeMapping : ResolvedFieldMappingConfig :=
  { schoolName := some "Acme", sections := [{ name := "AcmeSection", fields := [] }] }

/-- A mapping registered under the textual program name `Nursing`. -/
def nursingMapping : ResolvedFieldMappingConfig :=
  { programName := some "Nursing", sections := [{ name := "NursingSection", fields := [] }] }

/-- The default/base mapping of the counterexample registry. -/
def defaultMapping : ResolvedFieldMappingConfig :=
  { sections := [{ name := "DefaultSection", fields := [] }] }

/-- A registry built through `registerConfig` holding a school-name
mapping, a program-name mapping, and a default document. -/
def nameRegistry : Registry :=
  registerConfig "default" defaultMapping
    (registerConfig "acme" acmeMapping
      (registerConfig "nursing" nursingMapping []))

/-- C3 (counterexample): in a registry that also contains a `default`
document, a lookup supplying only the two textual names returns the
default document, not the school-name mapping: with neither id supplied,
`getMappingKey` is the literal `"default"`, so the priority-1 probe hits
the default entry before the school-name key is ever consulted. -/
theorem getMapping_default_shadows_school_name :
    nameRegistry.lookup "schoolName:Acme" = some acmeMapping ∧
    nameRegistry.lookup "program:Nursing" = some nursingMapping ∧
    getMapping nameRegistry none none (some "Acme") (some "Nursing") = some defaultMapping ∧
    defaultMapping ≠ acmeMapping := by
  refine ⟨rfl, rfl, rfl, by decide⟩

/-- C3 (amended): the school-name key is consulted strictly before the
program-name key, and the program-name key only when no truthy school
name was supplied — provided the priority-1 id key (which degenerates to
the literal `default` when no id is supplied) and the priority-2
school-id key miss. Part two: with a truthy school name supplied, the
result never depends on the program name at all. -/
theorem getMapping_school_name_priority :
    (∀ (reg : Registry) (sid pid : Option String) (n : String) (pn : Option String)
       (m : ResolvedFieldMappingConfig),
       (n == "") = false →
       reg.lookup (getMappingKey sid pid) = none →
       (if strTruthy sid then reg.lookup ("school:" ++ sid.getD "") else none) = none →
       reg.lookup ("schoolName:" ++ n) = some m →
       getMapping reg sid pid (some n) pn = some m) ∧
    (∀ (reg : Registry) (sid pid : Option String) (n : String) (pn : Option String),
       (n == "") = false →
       getMapping reg sid pid (some n) pn = getMapping reg sid pid (some n) none) := by
  constructor
  · intro reg sid pid n pn m hn h1 h2 h3
    have hsn : strTruthy (some n) = true := by simp [strTruthy, bne, hn]
    unfold getMapping
    rw [h1, h2, hsn]
    simp only [if_true, Option.getD_some]
    rw [h3]
  · intro reg sid pid n pn hn
    have hsn : strTruthy (some n) = true := by simp [strTruthy, bne, hn]
    unfold getMapping
    simp [hsn]

/-- A registry holding only the school-name mapping, for the witness. -/
def acmeOnlyRegistry : Registry := registerConfig "acme" acmeMapping []

/-- Witness for C3 (amended): with no id supplied and no default
registered, the school-name mapping wins over the program-name mapping. -/
theorem getMapping_school_name_priority_witness :
    getMapping acmeOnlyRegistry none none (some "Acme") (some "Nursing") = some acmeMapping :=
  getMapping_school_name_priority.1 acmeOnlyRegistry none none "Acme" (some "Nursing")
    acmeMapping rfl rfl rfl rfl

/-! ## Claim C5: array-indexed field extraction -/

/-- A record holding an ordered sequence whose element at index 0 is the
falsy number `0`. -/
def zeroElemRecord : List (String × JsValue) :=
  [("a", .vobj [("b", .varr [.vnum 0, .vstr "x"])])]

/-- C5 (counterexample): the sequence `a.b` exists and holds a value (the
number `0`) at index 0, yet `getFieldValue` on `a.b[0]` returns absence:
the source condition `current[arrayName][parseInt(index)]` truthiness-
checks the selected element, so a falsy element is treated as missing. -/
theorem getFieldValue_falsy_element_dropped :
    getFieldValue zeroElemRecord "a.b" = some (.varr [.vnum 0, .vstr "x"]) ∧
    [JsValue.vnum 0, JsValue.vstr "x"].get? 0 = some (.vnum 0) ∧
    getFieldValue zeroElemRecord "a.b[0]" = none :=
  ⟨rfl, rfl, rfl⟩

/-- C5 (amended): a `name[k]` segment resolves to element `k` of the
sequence stored under `name` whenever that sequence exists and the
element is present *and truthy*; an out-of-range index (and any missing
or wrongly-shaped segment) short-circuits to absence, never an error —
in particular `a.b[2].c` over a record where `a.b` has length 1 is
absent. -/
theorem getFieldValue_indexed_access_spec :
    (∀ (v : JsValue) (seg name : String) (idx : Nat) (rest : List String)
       (xs : List JsValue) (e : JsValue),
       parseArraySeg seg = some (name, idx) → truthy v = true →
       getProp v name = some (.varr xs) → xs.get? idx = some e → truthy e = true →
       walkParts v (seg :: rest) = walkParts e rest) ∧
    (∀ (v : JsValue) (seg name : String) (idx : Nat) (rest : List String)
       (xs : List JsValue),
       parseArraySeg seg = some (name, idx) →
       getProp v name = some (.varr xs) → xs.length ≤ idx →
       walkParts v (seg :: rest) = none) ∧
    (∀ (data : List (String × JsValue)) (xs : List JsValue),
       data.lookup "a" = some (.vobj [("b", .varr xs)]) → xs.length = 1 →
       getFieldValue data "a.b[2].c" = none) := by
  refine ⟨?_, ?_, ?_⟩
  · intro v seg name idx rest xs e hseg hv hprop hget he
    simp only [walkParts, hseg, hv, hprop, hget, he, if_true]
  · intro v seg name idx rest xs hseg hprop hlen
    cases hv : truthy v with
    | false => simp [walkParts, hseg, hv]
    | true =>
      simp only [walkParts, hseg, hv, hprop, List.get?_eq_none.mpr hlen, if_true]
  · intro data xs h1 hlen
    have step : getFieldValue data "a.b[2].c" = walkParts (.vobj data) ["a", "b[2]", "c"] := rfl
    rw [step]
    have h2 : getProp (JsValue.vobj data) "a" = some (.vobj [("b", .varr xs)]) := h1
    simp only [walkParts, show parseArraySeg "a" = none from rfl,
      show truthy (JsValue.vobj data) = true from rfl,
      show objLike (JsValue.vobj data) = true from rfl, Bool.and_self, if_true, h2,
      show parseArraySeg "b[2]" = some ("b", 2) from rfl,
      show truthy (JsValue.vobj [("b", JsValue.varr xs)]) = true from rfl,
      show getProp (JsValue.vobj [("b", JsValue.varr xs)]) "b" = some (.varr xs) from rfl,
      List.get?_eq_none.mpr (by omega : xs.length ≤ 2)]

/-- Witness for C5 (amended): a concrete truthy element is selected and
the walk continues with it. -/
theorem getFieldValue_indexed_access_spec_witness :
    walkParts (.vobj [("b", .varr [.vstr "hi"])]) ["b[0]"] = walkParts (.vstr "hi") [] :=
  getFieldValue_indexed_access_spec.1 (.vobj [("b", .varr [.vstr "hi"])]) "b[0]" "b" 0 []
    [.vstr "hi"] (.vstr "hi") rfl rfl rfl rfl rfl

/-! ## Claim C6: numeric zero never empty -/

/-- A record whose only array element is the number `0`. -/
def zeroIdxRecord : List (String × JsValue) :=
  [("a", .vobj [("b", .varr [.vnum 0])])]

/-- An unformatted field reading the indexed path `a.b[0]`. -/
def zeroIdxField : FieldMapping := { apiName := "a.b[0]", label := "Zero" }

/-- C6 (counterexample): a raw value `0` reached through an array-index
suffix does not display as `"0"`: extraction truthiness-drops the falsy
element, so the field formats to the empty marker even though the raw
value in the record is the number `0` (which the formatter by itself
would render as `"0"`). -/
theorem formatFieldValue_zero_via_index_empty :
    getFieldValue zeroIdxRecord "a.b" = some (.varr [.vnum 0]) ∧
    formatFieldValue 0 (some (.vnum 0)) zeroIdxField = "0" ∧
    formatFieldValue 0 (getFieldValue zeroIdxRecord "a.b[0]") zeroIdxField = "—" :=
  ⟨rfl, rfl, rfl⟩

/-- C6 (amended): whenever extraction delivers the raw number `0` (always
the case for a direct key or a dotted path whose indexed steps select
truthy elements), the formatted value is `"0"` under every format tag;
the empty marker is produced for absent, `null` and empty-string raw
values; but a `0` that is itself the element selected by a `name[k]`
suffix is treated as absent by extraction and yields the marker. -/
theorem formatFieldValue_zero_spec :
    (∀ (tz : Int) (data : List (String × JsValue)) (path : String) (field : FieldMapping),
       getFieldValue data path = some (.vnum 0) →
       formatFieldValue tz (getFieldValue data path) field = "0") ∧
    (∀ (tz : Int) (field : FieldMapping),
       formatFieldValue tz none field = "—" ∧
       formatFieldValue tz (some .vnull) field = "—" ∧
       formatFieldValue tz (some (.vstr "")) field = "—") ∧
    (∀ (v : JsValue) (seg name : String) (idx : Nat) (xs : List JsValue),
       parseArraySeg seg = some (name, idx) →
       getProp v name = some (.varr xs) → xs.get? idx = some (.vnum 0) →
       walkParts v [seg] = none) := by
  refine ⟨?_, ?_, ?_⟩
  · intro tz data path field h
    rw [h]
    rfl
  · intro tz field
    exact ⟨rfl, rfl, rfl⟩
  · intro v seg name idx xs hseg hprop hget
    cases hv : truthy v with
    | false => simp [walkParts, hseg, hv]
    | true =>
      simp only [walkParts, hseg, hv, hprop, hget, if_true,
        show truthy (JsValue.vnum 0) = false from rfl, Bool.false_eq_true, if_false]

/-- Witness for C6 (amended): a concrete direct-key zero renders as
`"0"`. -/
theorem formatFieldValue_zero_spec_witness :
    getFieldValue [("Deposit_Amount__c", .vnum 0)] "Deposit_Amount__c" = some (.vnum 0) ∧
    formatFieldValue 0 (getFieldValue [("Deposit_Amount__c", .vnum 0)] "Deposit_Amount__c")
      { apiName := "Deposit_Amount__c", label := "Deposit Amount" } = "0" :=
  ⟨rfl, formatFieldValue_zero_spec.1 0 [("Deposit_Amount__c", .vnum 0)] "Deposit_Amount__c"
    { apiName := "Deposit_Amount__c", label := "Deposit Amount" } rfl⟩

/-! ## Claim C7: date formatting -/

/-- A successfully parsed digit character is not `T`. -/
lemma parseDigit_ne_T {c : Char} {v : Nat} (h : parseDigit c = some v) :
    ('T' == c) = false := by
  unfold parseDigit at h
  split at h
  · next hd =>
    cases hTc : ('T' == c) with
    | false => rfl
    | true =>
      rw [← eq_of_beq hTc] at hd
      exact absurd hd (by decide)
  · cases h

/-- Inversion of `parseYMD`: a successful parse pins the first ten
characters down to eight digits around two dashes. -/
lemma parseYMD_inv {cs : List Char} {ymd : Nat × Nat × Nat} {rest : List Char}
    (h : parseYMD cs = some (ymd, rest)) :
    ∃ c1 c2 c3 c4 c5 c6 c7 c8,
      cs = c1 :: c2 :: c3 :: c4 :: '-' :: c5 :: c6 :: '-' :: c7 :: c8 :: rest ∧
      parseYMD8 c1 c2 c3 c4 c5 c6 c7 c8 = some ymd := by
  unfold parseYMD at h
  split at h
  · next c1 c2 c3 c4 c5 c6 c7 c8 r =>
    obtain ⟨ymd2, hp, heq⟩ := Option.map_eq_some'.mp h
    cases heq
    exact ⟨c1, c2, c3, c4, c5, c6, c7, c8, rfl, hp⟩
  · cases h

/-- The ten characters of a valid `YYYY-MM-DD` prefix contain no `T`. -/
lemma parseYMD8_no_T {c1 c2 c3 c4 c5 c6 c7 c8 : Char} {ymd : Nat × Nat × Nat}
    (h : parseYMD8 c1 c2 c3 c4 c5 c6 c7 c8 = some ymd) :
    List.contains [c1, c2, c3, c4, '-', c5, c6, '-', c7, c8] 'T' = false := by
  unfold parseYMD8 at h
  split at h
  · next a b c d e f g hh heq1 heq2 heq3 heq4 heq5 heq6 heq7 heq8 =>
    show List.elem 'T' _ = false
    simp only [List.elem_cons, parseDigit_ne_T heq1, parseDigit_ne_T heq2,
      parseDigit_ne_T heq3, parseDigit_ne_T heq4, parseDigit_ne_T heq5,
      parseDigit_ne_T heq6, parseDigit_ne_T heq7, parseDigit_ne_T heq8,
      show ('T' == '-') = false from rfl, List.elem_nil]
  · cases h

/-- C7: for a field with format `date`, (1) a bare `YYYY-MM-DD` raw string
is interpreted as local midnight of that calendar date and renders as the
short-date form of exactly that calendar date in every local time zone;
(2) a string containing a time component (`T`) is handed to the timestamp
parse unchanged — no local-midnight suffix is appended; (3) any
(non-empty) value the date parse cannot handle is returned in its
original string form, never an error. -/
theorem formatFieldValue_date_spec :
    (∀ (tz : Int) (s : String) (y mo d : Nat) (field : FieldMapping),
       field.format = some "date" → parseBareYMD s = some (y, mo, d) →
       formatFieldValue tz (some (.vstr s)) field = shortDateStr (y, mo, d)) ∧
    (∀ s : String, jsIncludes s 'T' = true → jsDateInput s = s) ∧
    (∀ (tz : Int) (s : String) (field : FieldMapping),
       field.format = some "date" → s ≠ "" → jsDateParse (jsDateInput s) = none →
       formatFieldValue tz (some (.vstr s)) field = s) := by
  refine ⟨?_, ?_, ?_⟩
  · intro tz s y mo d field hf hbare
    unfold parseBareYMD at hbare
    split at hbare
    case h_2 => cases hbare
    case h_1 ymd hYMD =>
    rcases Option.some.injEq .. ▸ hbare with rfl
    obtain ⟨c1, c2, c3, c4, c5, c6, c7, c8, hcs, h8⟩ := parseYMD_inv hYMD
    have hs_ne : s ≠ "" := by
      intro he
      rw [he] at hcs
      exact absurd hcs (by simp [String.data])
    have hT : jsIncludes s 'T' = false := by
      unfold jsIncludes
      rw [hcs]
      exact parseYMD8_no_T h8
    have hinput : jsDateInput s = s ++ "T00:00:00" := by
      unfold jsDateInput
      rw [hT]
      simp
    have hdata : (s ++ "T00:00:00").data =
        c1 :: c2 :: c3 :: c4 :: '-' :: c5 :: c6 :: '-' :: c7 :: c8 ::
          ('T' :: '0' :: '0' :: ':' :: '0' :: '0' :: ':' :: '0' :: '0' :: []) := by
      rw [String.data_append, hcs]
      rfl
    have hparse : jsDateParse (s ++ "T00:00:00") = some (.localTime y mo d 0 0 0) := by
      unfold jsDateParse
      rw [hdata]
      simp only [parseYMD, h8, Option.map_some']
      rfl
    have hne : (s == "") = false := beq_eq_false_iff_ne.mpr hs_ne
    simp only [formatFieldValue, hne, Bool.false_eq_true, if_false, hf,
      show strTruthy (some "date") = true from rfl, if_true, applyFormat,
      Option.getD_some, dateFormat, hinput, hparse, localCalendarDate]
  · intro s h
    unfold jsDateInput
    rw [h]
    simp
  · intro tz s field hf hs hparse
    have hne : (s == "") = false := beq_eq_false_iff_ne.mpr hs
    simp only [formatFieldValue, hne, Bool.false_eq_true, if_false, hf,
      show strTruthy (some "date") = true from rfl, if_true, applyFormat,
      Option.getD_some, dateFormat, hparse]

/-- A concrete `date`-formatted field for the witness. -/
def appliedDateField : FieldMapping :=
  { apiName := "AppliedDate", label := "Applied Date", format := some "date" }

/-- Witness for C7: `2024-07-09` renders as July 9, 2024 even in a zone
far west of UTC, and a non-date string passes through unchanged. -/
theorem formatFieldValue_date_spec_witness :
    parseBareYMD "2024-07-09" = some (2024, 7, 9) ∧
    formatFieldValue (-720) (some (.vstr "2024-07-09")) appliedDateField
      = shortDateStr (2024, 7, 9) ∧
    formatFieldValue 0 (some (.vstr "hello")) appliedDateField = "hello" :=
  ⟨rfl,
   formatFieldValue_date_spec.1 (-720) "2024-07-09" 2024 7 9 appliedDateField rfl rfl,
   formatFieldValue_date_spec.2.2 0 "hello" appliedDateField rfl (by decide) rfl⟩

/-! ## Claim C8: lite mode drops fully-filtered sections -/

/-- In lite mode, a field that is denylisted, off the essential-label
allowlist, or formats to the empty marker is dropped by the field loop. -/
lemma projectField_none_of_filtered (appUrl oppUrl progUrl : Option String)
    (tz : Int) (data : List (String × JsValue)) (f : FieldMapping)
    (h : liteExcludeFields.contains f.apiName = true ∨
         liteIncludeLabels.contains f.label = false ∨
         formatFieldValue tz (getFieldValue data f.apiName) f = "—") :
    projectField true appUrl oppUrl progUrl tz data f = none := by
  unfold projectField
  rcases h with h | h | h
  · rw [if_pos (show (true && liteExcludeFields.contains f.apiName) = true by rw [h]; rfl)]
  · by_cases h1 : (true && liteExcludeFields.contains f.apiName) = true
    · rw [if_pos h1]
    · rw [if_neg h1,
        if_pos (show (true && !(liteIncludeLabels.contains f.label)) = true by rw [h]; rfl)]
  · by_cases h1 : (true && liteExcludeFields.contains f.apiName) = true
    · rw [if_pos h1]
    · by_cases h2 : (true && !(liteIncludeLabels.contains f.label)) = true
      · rw [if_neg h1, if_pos h2]
      · rw [if_neg h1, if_neg h2,
          if_pos (show (true && (formatFieldValue tz (getFieldValue data f.apiName) f == "—"
            || formatFieldValue tz (getFieldValue data f.apiName) f == "")) = true by
              rw [h]; decide)]

/-- C8: in lite mode, a declared section in which every field is either on
the sourcePath denylist, or labelled outside the essential allowlist, or
formats to the empty marker, is entirely absent from the projection
result — the output equals the projection of the mapping with that
section deleted — and the output never contains a zero-field section. -/
theorem lite_mode_drops_empty_sections
    (envUrl : Option String) (tz : Int) (data : List (String × JsValue))
    (mapping : ResolvedFieldMappingConfig) (sect : Section)
    (hall : ∀ f ∈ sect.fields,
       liteExcludeFields.contains f.apiName = true ∨
       liteIncludeLabels.contains f.label = false ∨
       formatFieldValue tz (getFieldValue data f.apiName) f = "—") :
    (∀ s ∈ prepareTemplateData envUrl tz data mapping Mode.lite, s.fields ≠ []) ∧
    prepareTemplateData envUrl tz data mapping Mode.lite
      = prepareTemplateData envUrl tz data
          { mapping with sections := mapping.sections.filter (fun q => !(q == sect)) }
          Mode.lite := by
  constructor
  · intro s hs
    unfold prepareTemplateData at hs
    have hs2 := (List.mem_filter.mp hs).2
    intro hnil
    rw [hnil] at hs2
    exact absurd hs2 (by decide)
  · unfold prepareTemplateData
    have hFs : sect.fields.filterMap
        (projectField (Mode.lite == Mode.lite)
          (identityUrl (instanceUrlOf envUrl) data "Id" "IndividualApplication")
          (identityUrl (instanceUrlOf envUrl) data "Opportunity__c" "Opportunity")
          (identityUrl (instanceUrlOf envUrl) data "LearningProgramId" "LearningProgram")
          tz data) = [] :=
      List.filterMap_eq_nil_iff.mpr
        (fun f hf => projectField_none_of_filtered _ _ _ tz data f (hall f hf))
    have key : ∀ (L : List Section),
        (L.map (fun sect2 =>
            ProjSection.mk sect2.name
              (sect2.fields.filterMap
                (projectField (Mode.lite == Mode.lite)
                  (identityUrl (instanceUrlOf envUrl) data "Id" "IndividualApplication")
                  (identityUrl (instanceUrlOf envUrl) data "Opportunity__c" "Opportunity")
                  (identityUrl (instanceUrlOf envUrl) data "LearningProgramId" "LearningProgram")
                  tz data)))).filter (fun s => !s.fields.isEmpty)
        = ((L.filter (fun q => !(q == sect))).map (fun sect2 =>
            ProjSection.mk sect2.name
              (sect2.fields.filterMap
                (projectField (Mode.lite == Mode.lite)
                  (identityUrl (instanceUrlOf envUrl) data "Id" "IndividualApplication")
                  (identityUrl (instanceUrlOf envUrl) data "Opportunity__c" "Opportunity")
                  (identityUrl (instanceUrlOf envUrl) data "LearningProgramId" "LearningProgram")
                  tz data)))).filter (fun s => !s.fields.isEmpty) := by
      intro L
      induction L with
      | nil => rfl
      | cons q l ih =>
        by_cases hq : (q == sect) = true
        · have hqe : q = sect := eq_of_beq hq
          subst hqe
          simp only [List.map_cons, List.filter_cons, hFs, List.isEmpty_nil,
            Bool.not_true, hq, Bool.false_eq_true, if_false, ih]
        · have hq2 : (q == sect) = false := by
            cases hqq : (q == sect) with
            | false => rfl
            | true => exact absurd hqq hq
          simp only [List.map_cons, List.filter_cons, hq2, Bool.not_false, if_true, ih]
    exact key mapping.sections

/-- A section whose fields all fail the lite filters on the empty record:
a denylisted id, an off-allowlist label, and an allowlisted field whose
value is missing. -/
def internalSection : Section :=
  { name := "Internal",
    fields := [ { apiName := "Id", label := "Application ID" },
                { apiName := "Notes__c", label := "Internal Notes" },
                { apiName := "Decision__c", label := "Decision" } ] }

/-- A one-section mapping holding only `internalSection`. -/
def allFilteredMapping : ResolvedFieldMappingConfig :=
  { sections := [internalSection] }

/-- Witness for C8: the concrete all-filtered section vanishes from the
lite projection of the empty record. -/
theorem lite_mode_drops_empty_sections_witness :
    (∀ s ∈ prepareTemplateData none 0 [] allFilteredMapping Mode.lite, s.fields ≠ []) ∧
    prepareTemplateData none 0 [] allFilteredMapping Mode.lite
      = prepareTemplateData none 0 []
          { allFilteredMapping with
            sections := allFilteredMapping.sections.filter (fun q => !(q == internalSection)) }
          Mode.lite :=
  lite_mode_drops_empty_sections none 0 [] allFilteredMapping internalSection (by decide)

/-! ## Claim C9: purity of projection -/

/-- Erase the link of a projected field. -/
def stripLink (f : ProjField) : ProjField :=
  { f with link := none }

/-- Erase the links of a projected section. -/
def stripLinks (s : ProjSection) : ProjSection :=
  { s with fields := s.fields.map stripLink }

/-- A record exposing an application id, for the link counterexample. -/
def linkRecord : List (String × JsValue) := [("Id", .vstr "abc")]

/-- A mapping with one section reading the application id. -/
def linkMapping : ResolvedFieldMappingConfig :=
  { sections := [{ name := "Links", fields := [{ apiName := "Id", label := "Application ID" }] }] }

/-- C9 (counterexample): projection is not a pure function of (mapping,
record, mode): with identical mapping, record and mode, two values of the
`SF_INSTANCE_URL` process environment variable produce different ordered
section lists, and the differing component is the outbound `link` that
`prepareTemplateData` itself computes for the application-id field. -/
theorem prepareTemplateData_env_dependent :
    prepareTemplateData (some "https://env-one.example") 0 linkRecord linkMapping Mode.complete
      = [ProjSection.mk "Links"
          [ProjField.mk "Application ID" "abc" "Id"
            (some "https://env-one.example/lightning/r/IndividualApplication/abc/view")]] ∧
    prepareTemplateData (some "https://env-one.example") 0 linkRecord linkMapping Mode.complete
      ≠ prepareTemplateData (some "https://env-two.example") 0 linkRecord linkMapping Mode.complete := by
  refine ⟨rfl, by decide⟩

/-- Stripping links makes the field loop independent of the three URL
arguments: the drop decisions and the label/value/apiName payload never
read them. -/
lemma projectField_stripLink_env (isLite : Bool) (a1 o1 p1 a2 o2 p2 : Option String)
    (tz : Int) (data : List (String × JsValue)) (f : FieldMapping) :
    (projectField isLite a1 o1 p1 tz data f).map stripLink
      = (projectField isLite a2 o2 p2 tz data f).map stripLink := by
  unfold projectField
  split
  · rfl
  · split
    · rfl
    · split
      · rfl
      · simp [stripLink]

/-- In lite mode the field loop ignores the URL arguments entirely. -/
lemma projectField_lite_env (a1 o1 p1 a2 o2 p2 : Option String)
    (tz : Int) (data : List (String × JsValue)) (f : FieldMapping) :
    projectField true a1 o1 p1 tz data f = projectField true a2 o2 p2 tz data f := rfl

/-- Mapping sections through two field projectors that agree up to
links, then dropping empty sections, gives link-stripped-equal outputs. -/
lemma stripLinks_sections_congr (pf1 pf2 : FieldMapping → Option ProjField)
    (hpf : ∀ f, (pf1 f).map stripLink = (pf2 f).map stripLink) (L : List Section) :
    ((L.map (fun sect => ProjSection.mk sect.name (sect.fields.filterMap pf1))).filter
        (fun s => !s.fields.isEmpty)).map stripLinks
      = ((L.map (fun sect => ProjSection.mk sect.name (sect.fields.filterMap pf2))).filter
        (fun s => !s.fields.isEmpty)).map stripLinks := by
  induction L with
  | nil => rfl
  | cons q l ih =>
    have hq : (q.fields.filterMap pf1).map stripLink
        = (q.fields.filterMap pf2).map stripLink := by
      rw [List.map_filterMap, List.map_filterMap]
      exact List.filterMap_congr (fun f _ => hpf f)
    have hemp : (q.fields.filterMap pf1).isEmpty = (q.fields.filterMap pf2).isEmpty := by
      cases hA : q.fields.filterMap pf1 with
      | nil =>
        cases hB : q.fields.filterMap pf2 with
        | nil => rfl
        | cons b bs => rw [hA, hB] at hq; simp at hq
      | cons a as =>
        cases hB : q.fields.filterMap pf2 with
        | nil => rw [hA, hB] at hq; simp at hq
        | cons b bs => rfl
    simp only [List.map_cons, List.filter_cons]
    simp only [hemp]
    by_cases hB : (q.fields.filterMap pf2).isEmpty = true
    · simp only [hB, Bool.not_true, Bool.false_eq_true, if_false]
      exact ih
    · have hB2 : (q.fields.filterMap pf2).isEmpty = false := by
        cases hBB : (q.fields.filterMap pf2).isEmpty with
        | false => rfl
        | true => exact absurd hBB hB
      simp only [hB2, Bool.not_false, if_true, List.map_cons]
      rw [ih]
      congr 1
      simp only [stripLinks]
      rw [hq]

/-- C9 (amended): the ordered section list is a pure function of
(mapping, record, mode) together with the process time zone and the
`SF_INSTANCE_URL` environment variable; everything except the `link`
component — labels, formatted values, source paths, the set and order of
surviving sections — is independent of the instance URL, and in lite
mode the whole output is: links are attached (by the projector itself,
not a caller) only in complete mode. -/
theorem prepareTemplateData_pure_up_to_links :
    (∀ (e1 e2 : Option String) (tz : Int) (data : List (String × JsValue))
       (mapping : ResolvedFieldMappingConfig) (mode : Mode),
       (prepareTemplateData e1 tz data mapping mode).map stripLinks
         = (prepareTemplateData e2 tz data mapping mode).map stripLinks) ∧
    (∀ (e1 e2 : Option String) (tz : Int) (data : List (String × JsValue))
       (mapping : ResolvedFieldMappingConfig),
       prepareTemplateData e1 tz data mapping Mode.lite
         = prepareTemplateData e2 tz data mapping Mode.lite) := by
  constructor
  · intro e1 e2 tz data mapping mode
    unfold prepareTemplateData
    exact stripLinks_sections_congr _ _
      (fun f => projectField_stripLink_env (mode == Mode.lite)
        (identityUrl (instanceUrlOf e1) data "Id" "IndividualApplication")
        (identityUrl (instanceUrlOf e1) data "Opportunity__c" "Opportunity")
        (identityUrl (instanceUrlOf e1) data "LearningProgramId" "LearningProgram")
        (identityUrl (instanceUrlOf e2) data "Id" "IndividualApplication")
        (identityUrl (instanceUrlOf e2) data "Opportunity__c" "Opportunity")
        (identityUrl (instanceUrlOf e2) data "LearningProgramId" "LearningProgram")
        tz data f)
      mapping.sections
  · intro e1 e2 tz data mapping
    unfold prepareTemplateData
    have hfun : projectField (Mode.lite == Mode.lite)
          (identityUrl (instanceUrlOf e1) data "Id" "IndividualApplication")
          (identityUrl (instanceUrlOf e1) data "Opportunity__c" "Opportunity")
          (identityUrl (instanceUrlOf e1) data "LearningProgramId" "LearningProgram")
          tz data
        = projectField (Mode.lite == Mode.lite)
          (identityUrl (instanceUrlOf e2) data "Id" "IndividualApplication")
          (identityUrl (instanceUrlOf e2) data "Opportunity__c" "Opportunity")
          (identityUrl (instanceUrlOf e2) data "LearningProgramId" "LearningProgram")
          tz data :=
      funext (fun f => projectField_lite_env _ _ _ _ _ _ tz data f)
    rw [hfun]

/-! ## Claim C10: the empty-section filter in complete mode -/

/-- The projected field the complete-mode loop emits for one declared
field: the formatted value (empty-marker substitution included) plus the
deep link, nothing filtered. -/
def completeField (appUrl oppUrl progUrl : Option String) (tz : Int)
    (data : List (String × JsValue)) (field : FieldMapping) : ProjField :=
  { label := field.label,
    value := formatFieldValue tz (getFieldValue data field.apiName) field,
    apiName := field.apiName,
    link := linkFor appUrl oppUrl progUrl field }

/-- In complete mode the field loop never drops a field. -/
lemma projectField_complete (appUrl oppUrl progUrl : Option String) (tz : Int)
    (data : List (String × JsValue)) (f : FieldMapping) :
    projectField false appUrl oppUrl progUrl tz data f
      = some (completeField appUrl oppUrl progUrl tz data f) := rfl

/-- C10: the zero-field-section filter runs in both modes: in complete
mode the projection equals the declared sections with the empty-field
ones dropped, each surviving section emitting exactly one projected field
per declared field (with the empty-marker substitution applied by the
formatter). -/
theorem prepareTemplateData_complete_shape (envUrl : Option String) (tz : Int)
    (data : List (String × JsValue)) (mapping : ResolvedFieldMappingConfig) :
    prepareTemplateData envUrl tz data mapping Mode.complete
      = (mapping.sections.filter (fun s => !s.fields.isEmpty)).map
          (fun s => ProjSection.mk s.name
            (s.fields.map (completeField
              (identityUrl (instanceUrlOf envUrl) data "Id" "IndividualApplication")
              (identityUrl (instanceUrlOf envUrl) data "Opportunity__c" "Opportunity")
              (identityUrl (instanceUrlOf envUrl) data "LearningProgramId" "LearningProgram")
              tz data))) := by
  unfold prepareTemplateData
  have hfm : ∀ (fs : List FieldMapping),
      fs.filterMap
          (projectField (Mode.complete == Mode.lite)
            (identityUrl (instanceUrlOf envUrl) data "Id" "IndividualApplication")
            (identityUrl (instanceUrlOf envUrl) data "Opportunity__c" "Opportunity")
            (identityUrl (instanceUrlOf envUrl) data "LearningProgramId" "LearningProgram")
            tz data)
        = fs.map (completeField
            (identityUrl (instanceUrlOf envUrl) data "Id" "IndividualApplication")
            (identityUrl (instanceUrlOf envUrl) data "Opportunity__c" "Opportunity")
            (identityUrl (instanceUrlOf envUrl) data "LearningProgramId" "LearningProgram")
            tz data) := by
    intro fs
    simp only [show (Mode.complete == Mode.lite) = false from rfl]
    induction fs with
    | nil => rfl
    | cons f l ih =>
      simp only [List.filterMap_cons, List.map_cons, projectField_complete, ih]
  simp only [hfm]
  rw [List.filter_map]
  congr 1
  apply List.filter_congr
  intro s _
  show (!(s.fields.map _).isEmpty) = !s.fields.isEmpty
  cases hf : s.fields with
  | nil => rfl
  | cons a l => rfl

end PdfGen
